import Mathlib

/-!
Verification of the Error Log Classifier design against its implementation.

Strings are modelled as lists of characters (`Str`).  The CLI pipeline,
the run_analysis wrapper and the file watcher are embedded from the
repository sources (`main.py`, `run_analysis.py`, `watcher.py`).  The core
algorithm modules (`signature_extractor.py`, `clustering.py`,
`report_generator.py`, `diff_analyzer.py`, `log_processor.py`) are imported
by `main.py` but are not part of the source tree, so they are modelled from
the specification text, as indicated on each definition.
-/

namespace ELC

/-- Raw lines and signatures are modelled as lists of characters. -/
abbrev Str := List Char

/-- Decimal digit character class (code points 48 to 57). -/
def isDigitChar (c : Char) : Bool := 48 ≤ c.toNat && c.toNat ≤ 57

/-- Basic latin letter character class. -/
def isAlphaChar (c : Char) : Bool :=
  (65 ≤ c.toNat && c.toNat ≤ 90) || (97 ≤ c.toNat && c.toNat ≤ 122)

/-- Hexadecimal digit character class (0-9, a-f, A-F). -/
def isHexChar (c : Char) : Bool :=
  isDigitChar c || (97 ≤ c.toNat && c.toNat ≤ 102) || (65 ≤ c.toNat && c.toNat ≤ 70)

/-- Whitespace character class: space, tab, carriage return, newline. -/
def isWsChar (c : Char) : Bool :=
  c.toNat = 32 || c.toNat = 9 || c.toNat = 13 || c.toNat = 10

/-- Path separator character class: slash or backslash. -/
def isSepChar (c : Char) : Bool := c.toNat = 47 || c.toNat = 92

/-- Quote character class: double quote (34) or single quote (39). -/
def isQuoteChar (c : Char) : Bool := c.toNat = 34 || c.toNat = 39

/-- Dot character test, used by the IPv4 rule. -/
def isDotChar (c : Char) : Bool := c.toNat = 46

/-- Dash character test, used by timestamp and UUID rules. -/
def isDashChar (c : Char) : Bool := c.toNat = 45

/-- Placeholder token for timestamps. -/
def tsTok : Str := ['<', 'T', 'I', 'M', 'E', 'S', 'T', 'A', 'M', 'P', '>']

/-- Placeholder token for UUIDs. -/
def uuidTok : Str := ['<', 'U', 'U', 'I', 'D', '>']

/-- Placeholder token for IP addresses. -/
def ipTok : Str := ['<', 'I', 'P', '>']

/-- Placeholder token for hexadecimal blobs. -/
def hexTok : Str := ['<', 'H', 'E', 'X', '>']

/-- Placeholder token for decimal numbers. -/
def numTok : Str := ['<', 'N', 'U', 'M', '>']

/-- Placeholder token for file-system-like paths. -/
def pathTok : Str := ['<', 'P', 'A', 'T', 'H', '>']

/-- Placeholder token for quoted string literals. -/
def strTok : Str := ['<', 'S', 'T', 'R', '>']

/-- Modelled from the spec: rule 1 of the normalization priority list of the
missing signature_extractor module.  A token is timestamp-shaped when it
starts with an ISO-8601 date prefix dddd-dd-dd. -/
def tsShape : Str → Bool
  | a :: b :: c :: d :: e :: f :: g :: h :: i :: j :: _ =>
    isDigitChar a && isDigitChar b && isDigitChar c && isDigitChar d &&
    isDashChar e && isDigitChar f && isDigitChar g && isDashChar h &&
    isDigitChar i && isDigitChar j
  | _ => false

/-- Modelled from the spec: rule 2, UUID-shaped tokens, 8-4-4-4-12 hex groups
separated by dashes. -/
def isUUIDTok (t : Str) : Bool :=
  decide (t.length = 36) && t.all (fun c => isHexChar c || isDashChar c) &&
  isDashChar ((t.drop 8).headD ' ') && isDashChar ((t.drop 13).headD ' ') &&
  isDashChar ((t.drop 18).headD ' ') && isDashChar ((t.drop 23).headD ' ')

/-- Splits a token at dot characters, used by the IPv4 rule. -/
def splitDot : Str → List Str
  | [] => [[]]
  | c :: r =>
    if isDotChar c then [] :: splitDot r
    else
      match splitDot r with
      | [] => [[c]]
      | p :: ps => (c :: p) :: ps

/-- Modelled from the spec: rule 3, IPv4 address literals, four dot-separated
groups of one to three decimal digits. -/
def isIPTok (t : Str) : Bool :=
  t.all (fun c => isDigitChar c || isDotChar c) &&
  decide ((splitDot t).length = 4) &&
  (splitDot t).all (fun p => !p.isEmpty && decide (p.length ≤ 3) && p.all isDigitChar)

/-- Modelled from the spec: rule 4, hexadecimal blobs of length at least 6. -/
def isHexTok (t : Str) : Bool := decide (6 ≤ t.length) && t.all isHexChar

/-- Modelled from the spec: rule 5, standalone decimal numbers. -/
def isNumTok (t : Str) : Bool := !t.isEmpty && t.all isDigitChar

/-- Modelled from the spec: rule 5, numeric suffix of an alphabetic word, as in
user123.  Returns the alphabetic stem when the token is such a word. -/
def numSuffixStem (t : Str) : Option Str :=
  let ds := t.reverse.takeWhile isDigitChar
  let stem := (t.reverse.dropWhile isDigitChar).reverse
  if ds.isEmpty then none
  else if stem.isEmpty then none
  else if stem.all isAlphaChar then some stem
  else none

/-- Splits a token at path separators, used by the path rule. -/
def splitSep : Str → List Str
  | [] => [[]]
  | c :: r =>
    if isSepChar c then [] :: splitSep r
    else
      match splitSep r with
      | [] => [[c]]
      | p :: ps => (c :: p) :: ps

/-- Modelled from the spec: rule 6, file-system-like paths, tokens containing a
separator with at least two nonempty segments. -/
def isPathTok (t : Str) : Bool :=
  t.any isSepChar &&
  decide (2 ≤ ((splitSep t).filter (fun p => !p.isEmpty)).length)

/-- Modelled from the spec: rule 7, quoted string literals, first and last
character the same quote. -/
def isStrTok (t : Str) : Bool :=
  decide (2 ≤ t.length) && isQuoteChar (t.headD ' ') &&
  ((t.headD ' ') == (t.getLast?.getD ' '))

/-- Modelled from the spec: the ordered normalization rule list of section 4.1
applied to one whitespace-free token.  The first matching rule wins, so a
replaced token is not re-matched by a later, looser rule. -/
def classify (t : Str) : Str :=
  if tsShape t then tsTok
  else if isUUIDTok t then uuidTok
  else if isIPTok t then ipTok
  else if isHexTok t then hexTok
  else if isNumTok t then numTok
  else
    match numSuffixStem t with
    | some stem => stem ++ numTok
    | none =>
      if isPathTok t then pathTok
      else if isStrTok t then strTok
      else t

/-- One step of the whitespace tokenizer, consumed by a right fold. -/
def addChar (c : Char) (acc : List Str) : List Str :=
  if isWsChar c then [] :: acc
  else
    match acc with
    | [] => [[c]]
    | w :: ws => (c :: w) :: ws

/-- Raw whitespace split of a line, possibly with empty tokens. -/
def wordsAux (s : Str) : List Str := s.foldr addChar []

/-- Whitespace tokens of a line, empty tokens removed. -/
def words (s : Str) : List Str := (wordsAux s).filter (fun w => !w.isEmpty)

/-- Joins tokens with single spaces; realizes rule 8 of the spec, collapsing
repeated whitespace and trimming the ends. -/
def joinSp : List Str → Str
  | [] => []
  | [t] => t
  | t :: ts => t ++ ' ' :: joinSp ts

/-- Modelled from the spec: get_signature of the missing signature_extractor
module.  Tokenizes on whitespace, normalizes each token by the rule list of
section 4.1, and joins with single spaces (rule 8). -/
def get_signature (s : Str) : Str := joinSp ((words s).map classify)

theorem all_eq_false_of_mem {p : Char → Bool} {t : Str} {c : Char}
    (hc : c ∈ t) (hp : p c = false) : t.all p = false := by
  by_contra h
  have h' : t.all p = true := by
    cases hall : t.all p
    · exact absurd hall h
    · rfl
  rw [List.all_eq_true] at h'
  have := h' c hc
  rw [hp] at this
  exact Bool.false_ne_true this

theorem isAlphaChar_not_digit {c : Char} (h : isAlphaChar c = true) :
    isDigitChar c = false := by
  simp [isAlphaChar] at h
  simp [isDigitChar]
  omega

theorem isAlphaChar_not_sep {c : Char} (h : isAlphaChar c = true) :
    isSepChar c = false := by
  simp [isAlphaChar] at h
  simp [isSepChar]
  omega

theorem isAlphaChar_not_quote {c : Char} (h : isAlphaChar c = true) :
    isQuoteChar c = false := by
  simp [isAlphaChar] at h
  simp [isQuoteChar]
  omega

theorem isAlphaChar_not_ws {c : Char} (h : isAlphaChar c = true) :
    isWsChar c = false := by
  simp [isAlphaChar] at h
  simp [isWsChar]
  omega

theorem tsShape_eq_false {t : Str} (h : isDigitChar (t.headD ' ') = false) :
    tsShape t = false := by
  unfold tsShape
  split
  · rename_i a b c d e f g hdash i j rest
    simp only [List.headD_cons] at h
    simp [h]
  · rfl

theorem numSuffixStem_spec {t stem : Str} (h : numSuffixStem t = some stem) :
    stem ≠ [] ∧ stem.all isAlphaChar = true := by
  simp only [numSuffixStem] at h
  split_ifs at h with h1 h2 h3
  · cases h
    refine ⟨?_, h3⟩
    intro hnil
    rw [hnil] at h2
    exact absurd rfl h2

theorem isUUIDTok_eq_false {t : Str}
    (h : t.all (fun c => isHexChar c || isDashChar c) = false) :
    isUUIDTok t = false := by
  unfold isUUIDTok
  rw [h]
  simp

theorem isIPTok_eq_false {t : Str}
    (h : t.all (fun c => isDigitChar c || isDotChar c) = false) :
    isIPTok t = false := by
  unfold isIPTok
  rw [h]
  simp

theorem isHexTok_eq_false {t : Str} (h : t.all isHexChar = false) :
    isHexTok t = false := by
  unfold isHexTok
  rw [h]
  simp

theorem isNumTok_eq_false {t : Str} (h : t.all isDigitChar = false) :
    isNumTok t = false := by
  unfold isNumTok
  rw [h]
  simp

theorem isPathTok_eq_false {t : Str} (h : t.any isSepChar = false) :
    isPathTok t = false := by
  unfold isPathTok
  rw [h]
  simp

theorem isStrTok_eq_false {t : Str} (h : isQuoteChar (t.headD ' ') = false) :
    isStrTok t = false := by
  unfold isStrTok
  rw [h]
  simp

theorem numSuffixStem_append_numTok (p : Str) :
    numSuffixStem (p ++ numTok) = none := by
  unfold numSuffixStem
  have hrev : (p ++ numTok).reverse = '>' :: ('M' :: 'U' :: 'N' :: '<' :: p.reverse) := by
    simp [numTok, List.reverse_append]
  rw [hrev]
  have hd : isDigitChar '>' = false := by decide
  simp [List.takeWhile_cons, hd]

theorem mem_numTok {c : Char} (h : c ∈ numTok) :
    c = '<' ∨ c = 'N' ∨ c = 'U' ∨ c = 'M' ∨ c = '>' := by
  simp [numTok] at h
  tauto

theorem classify_append_numTok {p : Str} (hne : p ≠ [])
    (hall : p.all isAlphaChar = true) : classify (p ++ numTok) = p ++ numTok := by
  obtain ⟨x, p', rfl⟩ : ∃ x p', p = x :: p' := by
    cases p with
    | nil => exact absurd rfl hne
    | cons x p' => exact ⟨x, p', rfl⟩
  rw [List.all_eq_true] at hall
  have hx : isAlphaChar x = true := hall x (List.mem_cons_self x p')
  have hlt : ('<' : Char) ∈ (x :: p') ++ numTok := by
    simp [numTok]
  have h1 : tsShape ((x :: p') ++ numTok) = false := by
    apply tsShape_eq_false
    simpa using isAlphaChar_not_digit hx
  have h2 : isUUIDTok ((x :: p') ++ numTok) = false :=
    isUUIDTok_eq_false (all_eq_false_of_mem hlt (by decide))
  have h3 : isIPTok ((x :: p') ++ numTok) = false :=
    isIPTok_eq_false (all_eq_false_of_mem hlt (by decide))
  have h4 : isHexTok ((x :: p') ++ numTok) = false :=
    isHexTok_eq_false (all_eq_false_of_mem hlt (by decide))
  have h5 : isNumTok ((x :: p') ++ numTok) = false :=
    isNumTok_eq_false (all_eq_false_of_mem hlt (by decide))
  have h6 : numSuffixStem ((x :: p') ++ numTok) = none :=
    numSuffixStem_append_numTok (x :: p')
  have h7 : isPathTok ((x :: p') ++ numTok) = false := by
    apply isPathTok_eq_false
    rw [← Bool.not_eq_true, List.any_eq_true]
    rintro ⟨c, hc, hsep⟩
    rcases List.mem_append.mp hc with hmem | hmem
    · have := isAlphaChar_not_sep (hall c hmem)
      rw [this] at hsep
      exact Bool.false_ne_true hsep
    · rcases mem_numTok hmem with rfl | rfl | rfl | rfl | rfl <;> simp [isSepChar] at hsep
  have h8 : isStrTok ((x :: p') ++ numTok) = false := by
    apply isStrTok_eq_false
    have hhead : (((x :: p') ++ numTok)).headD ' ' = x := by simp
    rw [hhead]
    exact isAlphaChar_not_quote hx
  simp only [List.cons_append] at h1 h2 h3 h4 h5 h6 h7 h8
  simp [classify, h1, h2, h3, h4, h5, h6, h7, h8]

theorem classify_tsTok : classify tsTok = tsTok := by decide

theorem classify_uuidTok : classify uuidTok = uuidTok := by decide

theorem classify_ipTok : classify ipTok = ipTok := by decide

theorem classify_hexTok : classify hexTok = hexTok := by decide

theorem classify_numTok : classify numTok = numTok := by decide

theorem classify_pathTok : classify pathTok = pathTok := by decide

theorem classify_strTok : classify strTok = strTok := by decide

theorem classify_idem (t : Str) : classify (classify t) = classify t := by
  by_cases h1 : tsShape t
  · rw [show classify t = tsTok by simp [classify, h1]]
    exact classify_tsTok
  by_cases h2 : isUUIDTok t
  · rw [show classify t = uuidTok by simp [classify, h1, h2]]
    exact classify_uuidTok
  by_cases h3 : isIPTok t
  · rw [show classify t = ipTok by simp [classify, h1, h2, h3]]
    exact classify_ipTok
  by_cases h4 : isHexTok t
  · rw [show classify t = hexTok by simp [classify, h1, h2, h3, h4]]
    exact classify_hexTok
  by_cases h5 : isNumTok t
  · rw [show classify t = numTok by simp [classify, h1, h2, h3, h4, h5]]
    exact classify_numTok
  cases hstem : numSuffixStem t with
  | some stem =>
    have hspec := numSuffixStem_spec hstem
    rw [show classify t = stem ++ numTok by simp [classify, h1, h2, h3, h4, h5, hstem]]
    exact classify_append_numTok hspec.1 hspec.2
  | none =>
    by_cases h6 : isPathTok t
    · rw [show classify t = pathTok by simp [classify, h1, h2, h3, h4, h5, hstem, h6]]
      exact classify_pathTok
    by_cases h7 : isStrTok t
    · rw [show classify t = strTok by simp [classify, h1, h2, h3, h4, h5, hstem, h6, h7]]
      exact classify_strTok
    · have ht : classify t = t := by
        simp [classify, h1, h2, h3, h4, h5, hstem, h6, h7]
      rw [ht]
      exact ht

theorem classify_ne_nil {t : Str} (h : t ≠ []) : classify t ≠ [] := by
  by_cases h1 : tsShape t
  · rw [show classify t = tsTok by simp [classify, h1]]; decide
  by_cases h2 : isUUIDTok t
  · rw [show classify t = uuidTok by simp [classify, h1, h2]]; decide
  by_cases h3 : isIPTok t
  · rw [show classify t = ipTok by simp [classify, h1, h2, h3]]; decide
  by_cases h4 : isHexTok t
  · rw [show classify t = hexTok by simp [classify, h1, h2, h3, h4]]; decide
  by_cases h5 : isNumTok t
  · rw [show classify t = numTok by simp [classify, h1, h2, h3, h4, h5]]; decide
  cases hstem : numSuffixStem t with
  | some stem =>
    rw [show classify t = stem ++ numTok by simp [classify, h1, h2, h3, h4, h5, hstem]]
    simp [numTok]
  | none =>
    by_cases h6 : isPathTok t
    · rw [show classify t = pathTok by simp [classify, h1, h2, h3, h4, h5, hstem, h6]]; decide
    by_cases h7 : isStrTok t
    · rw [show classify t = strTok by simp [classify, h1, h2, h3, h4, h5, hstem, h6, h7]]
      decide
    · rw [show classify t = t by simp [classify, h1, h2, h3, h4, h5, hstem, h6, h7]]
      exact h

theorem classify_no_ws {t : Str} (h : ∀ c ∈ t, isWsChar c = false) :
    ∀ c ∈ classify t, isWsChar c = false := by
  by_cases h1 : tsShape t
  · rw [show classify t = tsTok by simp [classify, h1]]; decide
  by_cases h2 : isUUIDTok t
  · rw [show classify t = uuidTok by simp [classify, h1, h2]]; decide
  by_cases h3 : isIPTok t
  · rw [show classify t = ipTok by simp [classify, h1, h2, h3]]; decide
  by_cases h4 : isHexTok t
  · rw [show classify t = hexTok by simp [classify, h1, h2, h3, h4]]; decide
  by_cases h5 : isNumTok t
  · rw [show classify t = numTok by simp [classify, h1, h2, h3, h4, h5]]; decide
  cases hstem : numSuffixStem t with
  | some stem =>
    rw [show classify t = stem ++ numTok by simp [classify, h1, h2, h3, h4, h5, hstem]]
    intro c hc
    rcases List.mem_append.mp hc with hmem | hmem
    · have hall := (numSuffixStem_spec hstem).2
      rw [List.all_eq_true] at hall
      exact isAlphaChar_not_ws (hall c hmem)
    · rcases mem_numTok hmem with rfl | rfl | rfl | rfl | rfl <;> decide
  | none =>
    by_cases h6 : isPathTok t
    · rw [show classify t = pathTok by simp [classify, h1, h2, h3, h4, h5, hstem, h6]]; decide
    by_cases h7 : isStrTok t
    · rw [show classify t = strTok by simp [classify, h1, h2, h3, h4, h5, hstem, h6, h7]]
      decide
    · rw [show classify t = t by simp [classify, h1, h2, h3, h4, h5, hstem, h6, h7]]
      exact h

theorem wordsAux_no_ws (s : Str) :
    ∀ w ∈ wordsAux s, ∀ c ∈ w, isWsChar c = false := by
  induction s with
  | nil => intro w hw; simp [wordsAux] at hw
  | cons a s ih =>
    intro w hw c hc
    have hw' : w ∈ addChar a (wordsAux s) := hw
    unfold addChar at hw'
    split_ifs at hw' with ha
    · rcases List.mem_cons.mp hw' with rfl | hmem
      · simp at hc
      · exact ih w hmem c hc
    · cases hacc : wordsAux s with
      | nil =>
        rw [hacc] at hw'
        simp at hw'
        rcases hw' with rfl
        simp at hc
        rcases hc with rfl
        simpa using ha
      | cons v vs =>
        rw [hacc] at hw'
        rcases List.mem_cons.mp hw' with rfl | hmem
        · rcases List.mem_cons.mp hc with rfl | hcm
          · simpa using ha
          · exact ih v (by rw [hacc]; exact List.mem_cons_self v vs) c hcm
        · exact ih w (by rw [hacc]; exact List.mem_cons_of_mem v hmem) c hc

theorem words_no_ws (s : Str) :
    ∀ w ∈ words s, ∀ c ∈ w, isWsChar c = false := by
  intro w hw
  exact wordsAux_no_ws s w (List.mem_of_mem_filter hw)

theorem words_ne_nil (s : Str) : ∀ w ∈ words s, w ≠ [] := by
  intro w hw
  have := List.of_mem_filter hw
  simpa using this

theorem foldr_addChar_sep (t : Str) (acc : List Str)
    (h : ∀ c ∈ t, isWsChar c = false) :
    t.foldr addChar ([] :: acc) = t :: acc := by
  induction t with
  | nil => rfl
  | cons c t ih =>
    have hc : isWsChar c = false := h c (List.mem_cons_self c t)
    have ht : ∀ d ∈ t, isWsChar d = false := fun d hd => h d (List.mem_cons_of_mem c hd)
    simp only [List.foldr_cons, ih ht]
    unfold addChar
    rw [hc]
    simp

theorem wordsAux_single {t : Str} (hne : t ≠ [])
    (h : ∀ c ∈ t, isWsChar c = false) : wordsAux t = [t] := by
  induction t with
  | nil => exact absurd rfl hne
  | cons c t ih =>
    have hc : isWsChar c = false := h c (List.mem_cons_self c t)
    have ht : ∀ d ∈ t, isWsChar d = false := fun d hd => h d (List.mem_cons_of_mem c hd)
    cases t with
    | nil =>
      unfold wordsAux
      simp [addChar, hc]
    | cons b t' =>
      have : wordsAux (b :: t') = [b :: t'] := ih (by simp) ht
      unfold wordsAux at this ⊢
      simp only [List.foldr_cons] at this ⊢
      rw [this]
      unfold addChar
      rw [hc]
      simp

theorem wordsAux_word_sep (t r : Str) (h : ∀ c ∈ t, isWsChar c = false) :
    wordsAux (t ++ ' ' :: r) = t :: wordsAux r := by
  unfold wordsAux
  rw [List.foldr_append]
  have hsp : addChar ' ' (List.foldr addChar [] r) = [] :: List.foldr addChar [] r := by
    unfold addChar
    simp [isWsChar]
  simp only [List.foldr_cons, hsp]
  exact foldr_addChar_sep t _ h

theorem words_joinSp (L : List Str) (h1 : ∀ w ∈ L, w ≠ [])
    (h2 : ∀ w ∈ L, ∀ c ∈ w, isWsChar c = false) : words (joinSp L) = L := by
  induction L with
  | nil => rfl
  | cons t L ih =>
    have ht1 : t ≠ [] := h1 t (List.mem_cons_self t L)
    have ht2 : ∀ c ∈ t, isWsChar c = false := h2 t (List.mem_cons_self t L)
    cases L with
    | nil =>
      show words (joinSp [t]) = [t]
      unfold joinSp
      unfold words
      rw [wordsAux_single ht1 ht2]
      simp [ht1]
    | cons u L' =>
      have hL1 : ∀ w ∈ u :: L', w ≠ [] := fun w hw => h1 w (List.mem_cons_of_mem t hw)
      have hL2 : ∀ w ∈ u :: L', ∀ c ∈ w, isWsChar c = false :=
        fun w hw => h2 w (List.mem_cons_of_mem t hw)
      have hjoin : joinSp (t :: u :: L') = t ++ ' ' :: joinSp (u :: L') := rfl
      rw [hjoin]
      unfold words
      rw [wordsAux_word_sep t _ ht2]
      rw [List.filter_cons]
      have : (!t.isEmpty) = true := by
        cases t with
        | nil => exact absurd rfl ht1
        | cons a t' => rfl
      rw [this]
      simp only [if_pos rfl]
      have := ih hL1 hL2
      unfold words at this
      rw [this]
      simp

/-- C7: For all strings s, normalization is idempotent: applying get_signature
to an already-normalized signature is a no-op, that is
get_signature (get_signature s) = get_signature s. -/
theorem get_signature_idem (s : Str) :
    get_signature (get_signature s) = get_signature s := by
  unfold get_signature
  have h1 : ∀ w ∈ (words s).map classify, w ≠ [] := by
    intro w hw
    rcases List.mem_map.mp hw with ⟨v, hv, rfl⟩
    exact classify_ne_nil (words_ne_nil s v hv)
  have h2 : ∀ w ∈ (words s).map classify, ∀ c ∈ w, isWsChar c = false := by
    intro w hw
    rcases List.mem_map.mp hw with ⟨v, hv, rfl⟩
    exact classify_no_ws (words_no_ws s v hv)
  rw [words_joinSp _ h1 h2, List.map_map]
  congr 1
  apply List.map_congr_left
  intro t ht
  exact classify_idem t

/-- One log line as produced by the line source: 1-based line number, raw
text, and an optional timestamp (section 3 of the spec). -/
structure LogEntry where
  num : Nat
  text : Str
  ts : Option Nat
deriving DecidableEq

/-- Modelled from the spec: read_logs of the missing log_processor module.
The line source yields (line_number, raw_text) pairs numbered from 1, and the
max_lines cap simply truncates the input sequence. -/
def read_logs (file : List Str) (max_lines : Option Nat) : List LogEntry :=
  let numbered := (file.enum).map (fun p => ⟨p.1 + 1, p.2, none⟩)
  match max_lines with
  | none => numbered
  | some m => numbered.take m

/-- Filter configuration of an analyze run.  Regex matching and keyword
matching are external concerns, abstracted as predicates on the raw text. -/
structure FilterSpec where
  includeP : Option (Str → Bool)
  excludeP : Option (Str → Bool)
  keywordsP : Option (Str → Bool)

/-- A line survives the filters when it matches the include pattern, does not
match the exclude pattern, and contains the required keywords. -/
def passesFilters (fs : FilterSpec) (e : LogEntry) : Bool :=
  (match fs.includeP with | none => true | some p => p e.text) &&
  (match fs.excludeP with | none => true | some p => !(p e.text)) &&
  (match fs.keywordsP with | none => true | some p => p e.text)

/-- Modelled from the spec: filter_logs of the missing log_processor module,
keeping exactly the lines that survive the include, exclude and keyword
filters. -/
def filter_logs (fs : FilterSpec) (logs : List LogEntry) : List LogEntry :=
  logs.filter (passesFilters fs)

/-- True when any of the three filters is configured; analyze_log_file only
runs the filtering step in that case (main.py line 64). -/
def filtersPresent (fs : FilterSpec) : Bool :=
  fs.includeP.isSome || fs.excludeP.isSome || fs.keywordsP.isSome

/-- The no-filter configuration used by run_analysis.run and the watcher. -/
def noFilters : FilterSpec := ⟨none, none, none⟩

/-- Step 1 and step 2 of analyze_log_file (main.py lines 59 to 71): read the
logs, then filter them when a filter is configured. -/
def pipelineLogs (file : List Str) (max_lines : Option Nat) (fs : FilterSpec) :
    List LogEntry :=
  let logs := read_logs file max_lines
  if filtersPresent fs then filter_logs fs logs else logs

/-- Annotation step of main.py lines 75 to 78: each surviving line is paired
with the signature of its raw text. -/
def annotate (logs : List LogEntry) : List (Nat × Str × Str) :=
  logs.map (fun e => (e.num, e.text, get_signature e.text))

/-- Step 3 of analyze_log_file: the (line_number, raw_text, signature) triples
handed to the clusterer. -/
def lines_with_signatures (file : List Str) (max_lines : Option Nat)
    (fs : FilterSpec) : List (Nat × Str × Str) :=
  annotate (pipelineLogs file max_lines fs)

/-- One cluster record (section 3 of the spec). -/
structure Cluster where
  signature : Str
  count : Nat
  first_line_number : Nat
  example_text : Str
  member_line_numbers : List Nat
deriving DecidableEq

/-- Modelled from the spec: one aggregation step of the missing clustering
module.  Looks up the cluster keyed by the triple's signature; on a hit the
count is incremented and the line number appended, never overwriting
first_line_number or example_text; on a miss a fresh cluster is appended in
insertion order. -/
def updateClusters : List Cluster → Nat × Str × Str → List Cluster
  | [], (n, text, sig) => [⟨sig, 1, n, text, [n]⟩]
  | c :: cs, e =>
    if c.signature = e.2.2 then
      { c with count := c.count + 1,
               member_line_numbers := c.member_line_numbers ++ [e.1] } :: cs
    else c :: updateClusters cs e

/-- Modelled from the spec: cluster_by_signature of the missing clustering
module, a single left-to-right pass over the annotated lines. -/
def cluster_by_signature (ls : List (Nat × Str × Str)) : List Cluster :=
  ls.foldl updateClusters []

/-- Corpus statistics handed to the report builder. -/
structure Stats where
  total_lines : Nat
deriving DecidableEq

/-- Modelled from the spec: get_stats of the missing log_processor module;
total_lines is the number of lines in the given sequence. -/
def get_stats (logs : List LogEntry) : Stats := ⟨logs.length⟩

/-- The report of one analysis run (section 3 of the spec). -/
structure Report where
  total_lines : Nat
  total_clusters : Nat
  clusters : List Cluster
  average_cluster_size : ℚ
  largest_cluster : Nat
  smallest_cluster : Nat
deriving DecidableEq

/-- Ranking rule of section 4.3: count descending, ties broken by the
insertion (first-seen) order through a stable sort. -/
def sortClusters (cs : List Cluster) : List Cluster :=
  cs.insertionSort (fun a b => b.count ≤ a.count)

/-- Modelled from the spec: generate_summary of the missing report_generator
module.  Clusters are ranked by count descending; the zero-cluster corpus
yields a well-defined zero report instead of dividing by zero. -/
def generate_summary (clusters : List Cluster) (stats : Stats) : Report :=
  let counts := clusters.map Cluster.count
  { total_lines := stats.total_lines
    total_clusters := clusters.length
    clusters := sortClusters clusters
    average_cluster_size :=
      if clusters.length = 0 then 0 else (stats.total_lines : ℚ) / clusters.length
    largest_cluster := counts.foldr max 0
    smallest_cluster :=
      match counts with
      | [] => 0
      | c :: rest => rest.foldr min c }

/-- ErrorLogClassifier.analyze_log_file (main.py lines 39 to 98): read,
filter, extract signatures, cluster, compute stats on a fresh read of the
same source, and build the report. -/
def analyze_log_file (file : List Str) (max_lines : Option Nat)
    (fs : FilterSpec) : Report × List Cluster :=
  let lws := lines_with_signatures file max_lines fs
  let clusters := cluster_by_signature lws
  let stats := get_stats (read_logs file max_lines)
  (generate_summary clusters stats, clusters)

/-- run_analysis.run (run_analysis.py lines 19 to 41): the unfiltered
pipeline, with stats.total_lines overwritten by the physical line count of
the file as counted by a separate raw read. -/
def run_report (file : List Str) (physicalLineCount : Nat) : Report :=
  let lws := lines_with_signatures file none noFilters
  let clusters := cluster_by_signature lws
  let stats : Stats := { get_stats (read_logs file none) with
                         total_lines := physicalLineCount }
  generate_summary clusters stats

/-- Total number of lines accounted for by a cluster list. -/
def sumCounts (cs : List Cluster) : Nat := (cs.map Cluster.count).sum

theorem sumCounts_updateClusters (cs : List Cluster) (e : Nat × Str × Str) :
    sumCounts (updateClusters cs e) = sumCounts cs + 1 := by
  induction cs with
  | nil =>
    obtain ⟨n, text, sig⟩ := e
    simp [updateClusters, sumCounts]
  | cons c cs ih =>
    unfold updateClusters
    split_ifs with hsig
    · simp [sumCounts]
      omega
    · simp only [sumCounts, List.map_cons, List.sum_cons] at ih ⊢
      omega

theorem sumCounts_foldl (ls : List (Nat × Str × Str)) (acc : List Cluster) :
    sumCounts (ls.foldl updateClusters acc) = sumCounts acc + ls.length := by
  induction ls generalizing acc with
  | nil => simp
  | cons e ls ih =>
    simp only [List.foldl_cons, List.length_cons, ih (updateClusters acc e),
      sumCounts_updateClusters]
    omega

theorem sumCounts_sortClusters (cs : List Cluster) :
    sumCounts (sortClusters cs) = sumCounts cs := by
  unfold sumCounts sortClusters
  exact ((List.perm_insertionSort _ cs).map Cluster.count).sum_eq

theorem sumCounts_cluster_by_signature (ls : List (Nat × Str × Str)) :
    sumCounts (cluster_by_signature ls) = ls.length := by
  unfold cluster_by_signature
  rw [sumCounts_foldl]
  simp [sumCounts]

/-- C1: For every analysis run, the sum of count over all clusters in the
produced report equals the number of lines fed to the clusterer, which is the
post-filter line count; this also holds in run_analysis.run, where
total_lines is overwritten with the physical line count of the file. -/
theorem report_counts_sum_to_clusterer_input (file : List Str)
    (max_lines : Option Nat) (fs : FilterSpec) (physicalLineCount : Nat) :
    sumCounts (analyze_log_file file max_lines fs).1.clusters
        = (lines_with_signatures file max_lines fs).length
    ∧ (lines_with_signatures file max_lines fs).length
        = (pipelineLogs file max_lines fs).length
    ∧ sumCounts (run_report file physicalLineCount).clusters
        = (lines_with_signatures file none noFilters).length
    ∧ (run_report file physicalLineCount).total_lines = physicalLineCount := by
  refine ⟨?_, ?_, ?_, ?_⟩
  · simp only [analyze_log_file, generate_summary, sumCounts_sortClusters]
    exact sumCounts_cluster_by_signature _
  · simp [lines_with_signatures, annotate]
  · simp only [run_report, generate_summary, sumCounts_sortClusters]
    exact sumCounts_cluster_by_signature _
  · simp [run_report, generate_summary]

/-- C4: With an include regex, exclude regex, or required keywords configured,
filtering is applied before any signature is computed: every annotated triple
handed to the clusterer comes from a line that survived the filters, and its
signature is computed from that surviving line's raw text. -/
theorem filters_applied_before_signatures (file : List Str)
    (max_lines : Option Nat) (fs : FilterSpec)
    (hf : filtersPresent fs = true) :
    ∀ e ∈ lines_with_signatures file max_lines fs,
      ∃ le, le ∈ filter_logs fs (read_logs file max_lines)
        ∧ passesFilters fs le = true
        ∧ e = (le.num, le.text, get_signature le.text) := by
  intro e he
  simp only [lines_with_signatures, annotate, pipelineLogs, hf, if_true] at he
  rcases List.mem_map.mp he with ⟨le, hle, rfl⟩
  refine ⟨le, hle, ?_, rfl⟩
  have hle' : le ∈ List.filter (passesFilters fs) (read_logs file max_lines) := hle
  exact List.of_mem_filter hle'

/-- Witness input: one raw line consisting of the letter E. -/
def wLine : Str := ['E']

/-- Witness input: a one-line log file. -/
def wFile : List Str := [wLine]

/-- Witness input: a filter configuration with an include pattern that
matches everything. -/
def wFs : FilterSpec := ⟨some (fun _ => true), none, none⟩

theorem filters_applied_before_signatures_witness :
    filtersPresent wFs = true
    ∧ ∃ le, le ∈ filter_logs wFs (read_logs wFile none)
        ∧ passesFilters wFs le = true
        ∧ ((1 : Nat), wLine, wLine) = (le.num, le.text, get_signature le.text) :=
  ⟨rfl, filters_applied_before_signatures wFile none wFs rfl
    ((1 : Nat), wLine, wLine) (by decide)⟩

/-- C5: The max_lines cap truncates the input sequence before it reaches the
clusterer: reading with the cap is exactly taking the first max_lines lines,
at most max_lines triples are handed to the clusterer, and each of them comes
from one of the first max_lines lines of the source. -/
theorem max_lines_cap_truncates (file : List Str) (m : Nat) (fs : FilterSpec) :
    read_logs file (some m) = (read_logs file none).take m
    ∧ (lines_with_signatures file (some m) fs).length ≤ m
    ∧ ∀ e ∈ lines_with_signatures file (some m) fs,
        ∃ le, le ∈ (read_logs file none).take m
          ∧ e = (le.num, le.text, get_signature le.text) := by
  have hread : read_logs file (some m) = (read_logs file none).take m := rfl
  refine ⟨hread, ?_, ?_⟩
  · have hlen : (pipelineLogs file (some m) fs).length
        ≤ (read_logs file (some m)).length := by
      unfold pipelineLogs filter_logs
      split_ifs
      · exact List.length_filter_le _ _
      · exact Nat.le_refl _
    have htake : (read_logs file (some m)).length ≤ m := by
      rw [hread]
      exact List.length_take_le m _
    calc (lines_with_signatures file (some m) fs).length
        = (pipelineLogs file (some m) fs).length := by
          simp [lines_with_signatures, annotate]
      _ ≤ m := Nat.le_trans hlen htake
  · intro e he
    rcases List.mem_map.mp he with ⟨le, hle, rfl⟩
    refine ⟨le, ?_, rfl⟩
    rw [← hread]
    unfold pipelineLogs at hle
    split_ifs at hle with hp
    · exact List.mem_of_mem_filter hle
    · exact hle

/-- Witness input: a two-line log file. -/
def wFile2 : List Str := [['a'], ['b']]

theorem max_lines_cap_truncates_witness :
    read_logs wFile2 (some 1) = (read_logs wFile2 none).take 1
    ∧ (lines_with_signatures wFile2 (some 1) noFilters).length ≤ 1
    ∧ ∃ le, le ∈ (read_logs wFile2 none).take 1
        ∧ ((1 : Nat), (['a'] : Str), (['a'] : Str))
            = (le.num, le.text, get_signature le.text) := by
  obtain ⟨h1, h2, h3⟩ := max_lines_cap_truncates wFile2 1 noFilters
  exact ⟨h1, h2, h3 ((1 : Nat), (['a'] : Str), (['a'] : Str)) (by decide)⟩

/-- C6: The signature assigned in the pipeline is a deterministic function of
the raw text alone: every annotated triple carries get_signature of its raw
text, and any two triples from any two runs with equal raw text carry equal
signatures, regardless of line numbers or timestamps. -/
theorem signature_function_of_text_only (logs1 logs2 : List LogEntry) :
    (∀ e ∈ annotate logs1, e.2.2 = get_signature e.2.1)
    ∧ ∀ e1 ∈ annotate logs1, ∀ e2 ∈ annotate logs2,
        e1.2.1 = e2.2.1 → e1.2.2 = e2.2.2 := by
  constructor
  · intro e he
    rcases List.mem_map.mp he with ⟨le, hle, rfl⟩
    rfl
  · intro e1 h1 e2 h2 htext
    rcases List.mem_map.mp h1 with ⟨le1, hle1, rfl⟩
    rcases List.mem_map.mp h2 with ⟨le2, hle2, rfl⟩
    simp only at htext ⊢
    rw [htext]

/-- Witness input: two runs holding the same raw text under different line
numbers and timestamps. -/
def wLogs1 : List LogEntry := [⟨1, wLine, none⟩]

/-- Witness input: second run for the determinism witness. -/
def wLogs2 : List LogEntry := [⟨7, wLine, some 5⟩]

theorem signature_function_of_text_only_witness :
    ((1 : Nat), wLine, get_signature wLine).2.2
      = ((7 : Nat), wLine, get_signature wLine).2.2 :=
  (signature_function_of_text_only wLogs1 wLogs2).2
    ((1 : Nat), wLine, get_signature wLine) (by decide)
    ((7 : Nat), wLine, get_signature wLine) (by decide) rfl

/-- Fields of a serialized report, used to describe which part of a diff
input failed structural validation. -/
inductive ReportField where
  | total_lines
  | total_clusters
  | clusters
  | average_cluster_size
  | largest_cluster
  | smallest_cluster
  | signature
  | count
  | first_line_number
  | example_text
  | member_line_numbers
deriving DecidableEq

/-- Error taxonomy of the diff path (section 7 of the spec): a diff input
that fails structural validation is a MalformedReport naming the offending
field. -/
inductive DiffError where
  | MalformedReport (f : ReportField)
deriving DecidableEq

/-- A deserialized cluster record before structural validation: every field
may be absent. -/
structure RawCluster where
  signature : Option Str
  count : Option Int
  first_line_number : Option Int
  example_text : Option Str
  member_line_numbers : Option (List Int)
deriving DecidableEq

/-- A deserialized report before structural validation: every field may be
absent. -/
structure RawReport where
  total_lines : Option Int
  total_clusters : Option Int
  clusters : Option (List RawCluster)
  average_cluster_size : Option ℚ
  largest_cluster : Option Int
  smallest_cluster : Option Int
deriving DecidableEq

/-- Modelled from the spec: structural validation of one deserialized cluster
by the missing diff_analyzer module, per sections 3 and 7: all fields must be
present, count and line numbers must be at least 1. -/
def validateCluster (rc : RawCluster) : Except DiffError Cluster := do
  let some sig := rc.signature | throw (.MalformedReport .signature)
  let some cnt := rc.count | throw (.MalformedReport .count)
  let some fln := rc.first_line_number | throw (.MalformedReport .first_line_number)
  let some ext := rc.example_text | throw (.MalformedReport .example_text)
  let some mln := rc.member_line_numbers | throw (.MalformedReport .member_line_numbers)
  if cnt < 1 then throw (.MalformedReport .count)
  else if fln < 1 then throw (.MalformedReport .first_line_number)
  else if mln.any (fun i => decide (i < 1)) then
    throw (.MalformedReport .member_line_numbers)
  else pure ⟨sig, cnt.toNat, fln.toNat, ext, mln.map Int.toNat⟩

/-- Modelled from the spec: structural validation of a deserialized report by
the missing diff_analyzer module (load_baseline and load_current), failing
fast with a MalformedReport kind on the first missing or invalid field. -/
def validateReport (r : RawReport) : Except DiffError Report := do
  let some tl := r.total_lines | throw (.MalformedReport .total_lines)
  let some tc := r.total_clusters | throw (.MalformedReport .total_clusters)
  let some rcs := r.clusters | throw (.MalformedReport .clusters)
  let some avg := r.average_cluster_size | throw (.MalformedReport .average_cluster_size)
  let some lg := r.largest_cluster | throw (.MalformedReport .largest_cluster)
  let some sm := r.smallest_cluster | throw (.MalformedReport .smallest_cluster)
  if tl < 0 then throw (.MalformedReport .total_lines)
  else if tc < 0 then throw (.MalformedReport .total_clusters)
  else if lg < 0 then throw (.MalformedReport .largest_cluster)
  else if sm < 0 then throw (.MalformedReport .smallest_cluster)
  else do
    let cs ← rcs.mapM validateCluster
    pure ⟨tl.toNat, tc.toNat, cs, avg, lg.toNat, sm.toNat⟩

/-- Categories of a diff entry (section 3 of the spec). -/
inductive DiffCategory where
  | NEW
  | RESOLVED
  | UNCHANGED
  | CHANGED
deriving DecidableEq

/-- One entry of a diff result (section 3 of the spec). -/
structure DiffEntry where
  signature : Str
  category : DiffCategory
  baseline_count : Nat
  current_count : Nat
  delta : Int
  delta_pct : ℚ
deriving DecidableEq

/-- Signature-to-count lookup over a report's cluster list. -/
def countOf (r : Report) (s : Str) : Option Nat :=
  (r.clusters.find? (fun c => decide (c.signature = s))).map Cluster.count

/-- Modelled from the spec: the per-signature categorization of section 4.4.
Absent in baseline gives NEW, absent in current gives RESOLVED, equal counts
give UNCHANGED, differing counts give CHANGED with delta and delta_pct. -/
def mkEntry (b c : Report) (s : Str) : Option DiffEntry :=
  match countOf b s, countOf c s with
  | none, none => none
  | none, some cc => some ⟨s, .NEW, 0, cc, (cc : Int), 0⟩
  | some bb, none => some ⟨s, .RESOLVED, bb, 0, -(bb : Int), 0⟩
  | some bb, some cc =>
    if bb = cc then some ⟨s, .UNCHANGED, bb, cc, 0, 0⟩
    else some ⟨s, .CHANGED, bb, cc, (cc : Int) - (bb : Int),
      if 0 < bb then (((cc : Int) - (bb : Int) : Int) : ℚ) / (bb : ℚ) * 100 else 0⟩

/-- Lexicographic comparison of signatures by code point, the deterministic
tie-break of section 4.4. -/
def sigLtChars : Str → Str → Bool
  | [], [] => false
  | [], _ :: _ => true
  | _ :: _, [] => false
  | a :: as, b :: bs =>
    if a.toNat = b.toNat then sigLtChars as bs else decide (a.toNat < b.toNat)

/-- Output order of section 4.4: descending absolute delta, ties broken by
signature. -/
def diffBefore (e1 e2 : DiffEntry) : Bool :=
  decide (e2.delta.natAbs < e1.delta.natAbs) ||
  (decide (e1.delta.natAbs = e2.delta.natAbs) &&
    (sigLtChars e1.signature e2.signature || decide (e1.signature = e2.signature)))

/-- Modelled from the spec: compare of the missing diff_analyzer module
(section 4.4).  Builds the union of signatures of both sides in first-seen
order, categorizes each, and sorts by descending absolute delta with the
signature tie-break. -/
def compare (b c : Report) : List DiffEntry :=
  let sigs := (b.clusters.map Cluster.signature ++ c.clusters.map Cluster.signature).dedup
  (sigs.filterMap (mkEntry b c)).insertionSort (fun e1 e2 => diffBefore e1 e2 = true)

/-- ErrorLogClassifier.compare_reports (main.py lines 142 to 169) restricted
to its core: load both deserialized reports through validation, then diff
them; a validation failure aborts the diff operation. -/
def compare_reports (braw craw : RawReport) : Except DiffError (List DiffEntry) := do
  let b ← validateReport braw
  let c ← validateReport craw
  pure (compare b c)

/-- C3: A diff whose baseline or current input fails structural validation
fails fast with the descriptive MalformedReport kind and never yields a
(possibly empty) diff result; the failure is an error of the diff operation
only. -/
theorem malformed_diff_input_fails_fast (braw craw : RawReport)
    (h : (∃ e, validateReport braw = .error e)
        ∨ (∃ e, validateReport craw = .error e)) :
    (∃ f, compare_reports braw craw = .error (.MalformedReport f))
    ∧ ∀ l, compare_reports braw craw ≠ .ok l := by
  cases hb : validateReport braw with
  | error e =>
    obtain ⟨f⟩ := e
    have heq : compare_reports braw craw = .error (.MalformedReport f) := by
      simp only [compare_reports, hb]
      rfl
    exact ⟨⟨f, heq⟩, by intro l hl; rw [heq] at hl; exact Except.noConfusion hl⟩
  | ok b =>
    cases hc : validateReport craw with
    | error e =>
      obtain ⟨f⟩ := e
      have heq : compare_reports braw craw = .error (.MalformedReport f) := by
        simp only [compare_reports, hb, hc]
        rfl
      exact ⟨⟨f, heq⟩, by intro l hl; rw [heq] at hl; exact Except.noConfusion hl⟩
    | ok c =>
      rcases h with ⟨e, he⟩ | ⟨e, he⟩
      · rw [hb] at he; exact Except.noConfusion he
      · rw [hc] at he; exact Except.noConfusion he

/-- Witness input: a deserialized report whose clusters field is missing. -/
def wBadReport : RawReport := ⟨some 0, some 0, none, some 0, some 0, some 0⟩

theorem malformed_diff_input_fails_fast_witness :
    ((∃ e, validateReport wBadReport = .error e)
        ∨ (∃ e, validateReport wBadReport = .error e))
    ∧ (∃ f, compare_reports wBadReport wBadReport = .error (.MalformedReport f))
    ∧ ∀ l, compare_reports wBadReport wBadReport ≠ .ok l :=
  ⟨Or.inl ⟨.MalformedReport .clusters, rfl⟩,
    malformed_diff_input_fails_fast wBadReport wBadReport
      (Or.inl ⟨.MalformedReport .clusters, rfl⟩)⟩

/-- C8: Diffing a report against itself yields only UNCHANGED entries and no
NEW or RESOLVED entry. -/
theorem self_diff_all_unchanged (r : Report) :
    ∀ e ∈ compare r r,
      e.category = .UNCHANGED ∧ e.category ≠ .NEW ∧ e.category ≠ .RESOLVED := by
  intro e he
  unfold compare at he
  rw [List.mem_insertionSort] at he
  rcases List.mem_filterMap.mp he with ⟨s, hs, hmk⟩
  unfold mkEntry at hmk
  cases hcount : countOf r s with
  | none =>
    rw [hcount] at hmk
    simp at hmk
  | some bb =>
    rw [hcount] at hmk
    simp at hmk
    rw [← hmk]
    exact ⟨rfl, by simp, by simp⟩

/-- Witness input: a report with one cluster of count 2. -/
def wCluster : Cluster := ⟨wLine, 2, 1, wLine, [1, 2]⟩

/-- Witness input: the report containing wCluster. -/
def wReport : Report := ⟨2, 1, [wCluster], 2, 2, 2⟩

/-- Witness input: the diff entry the self-diff of wReport produces. -/
def wEntry : DiffEntry := ⟨wLine, .UNCHANGED, 2, 2, 0, 0⟩

theorem self_diff_all_unchanged_witness :
    wEntry ∈ compare wReport wReport
    ∧ wEntry.category = .UNCHANGED
    ∧ wEntry.category ≠ .NEW
    ∧ wEntry.category ≠ .RESOLVED :=
  ⟨by decide, self_diff_all_unchanged wReport wEntry (by decide)⟩

/-- One parsed CLI invocation of main (main.py lines 205 to 359), together
with the environment facts its control flow branches on: whether each input
file exists and whether the guarded analysis or comparison body raises. -/
inductive CliCmd where
  | noCommand : CliCmd
  | info : CliCmd
  | analyze (logExists : Bool) (analysisOk : Bool) : CliCmd
  | diff (baselineExists : Bool) (currentExists : Bool) (compareOk : Bool) : CliCmd
deriving DecidableEq

/-- Exit code of main (main.py lines 244 to 359): the no-command help path
and info return normally (exit 0); analyze exits 1 when the log file is
missing or the guarded body raises; diff exits 1 when the baseline or the
current report is missing or the guarded body raises; all other paths fall
through to exit 0. -/
def mainExitCode : CliCmd → Nat
  | .noCommand => 0
  | .info => 0
  | .analyze logExists analysisOk =>
    if logExists = false then 1
    else if analysisOk = false then 1
    else 0
  | .diff baselineExists currentExists compareOk =>
    if baselineExists = false then 1
    else if currentExists = false then 1
    else if compareOk = false then 1
    else 0

/-- An input file required by the command is missing. -/
def missingInputFile : CliCmd → Bool
  | .analyze logExists _ => !logExists
  | .diff baselineExists currentExists _ => !baselineExists || !currentExists
  | _ => false

/-- An unhandled analysis or comparison error occurs: the guarded body runs
(all input files exist) and raises. -/
def unhandledError : CliCmd → Bool
  | .analyze logExists analysisOk => logExists && !analysisOk
  | .diff baselineExists currentExists compareOk =>
    baselineExists && currentExists && !compareOk
  | _ => false

/-- C2: main exits with code 1 exactly when an input file is missing or an
unhandled analysis or comparison error occurs, and with code 0 otherwise,
including the info command and the no-command help path. -/
theorem main_exit_code_spec (cmd : CliCmd) :
    (mainExitCode cmd = 1
      ↔ (missingInputFile cmd = true ∨ unhandledError cmd = true))
    ∧ (mainExitCode cmd = 0
      ↔ (missingInputFile cmd = false ∧ unhandledError cmd = false))
    ∧ (mainExitCode cmd = 0 ∨ mainExitCode cmd = 1) := by
  cases cmd with
  | noCommand => decide
  | info => decide
  | analyze logExists analysisOk => cases logExists <;> cases analysisOk <;> decide
  | diff baselineExists currentExists compareOk =>
    cases baselineExists <;> cases currentExists <;> cases compareOk <;> decide

/-- One observation of the watched file at a poll: either the file is
missing, or it is present with a modification time. -/
inductive PollObs where
  | missing : PollObs
  | present (mtime : Nat) : PollObs
deriving DecidableEq

/-- One iteration of the polling loop of watch (watcher.py lines 44 to 55):
a missing file skips the iteration; a present file re-runs the analysis
exactly when its modification time differs from the last recorded one, and
then records the new time.  Returns the new recorded time and whether an
analysis run was triggered. -/
def pollStep (last : Nat) : PollObs → Nat × Bool
  | .missing => (last, false)
  | .present m => if m ≠ last then (m, true) else (last, false)

/-- The polling loop of watch over a finite trace of observations, yielding
for each poll whether an analysis re-run was triggered. -/
def pollLoop (last : Nat) : List PollObs → List Bool
  | [] => []
  | o :: rest => (pollStep last o).2 :: pollLoop (pollStep last o).1 rest

/-- The recorded modification time right before poll i of the loop. -/
def lastBefore (last : Nat) : List PollObs → Nat → Nat
  | _, 0 => last
  | [], _ + 1 => last
  | o :: rest, i + 1 => lastBefore (pollStep last o).1 rest i

/-- The fatal exit of watch when the log file does not exist at call time
(watcher.py line 32), modelling SystemExit. -/
structure WatchFatal where
  fileNotFound : Bool
deriving DecidableEq

/-- watch (watcher.py lines 30 to 58): raises SystemExit when the log file
does not exist at call time; otherwise runs one analysis immediately, then,
unless once is set, enters the polling loop.  The result is the sequence of
analysis-run events: the head entry is the immediate run, the tail the
per-poll re-run decisions. -/
def watch (exists0 : Bool) (mtime0 : Nat) (once : Bool)
    (polls : List PollObs) : Except WatchFatal (List Bool) :=
  if exists0 = false then .error ⟨true⟩
  else .ok (true :: (if once then [] else pollLoop mtime0 polls))

/-- C9: If the log file does not exist at call time, watch raises SystemExit
and performs no analysis run; if it exists, exactly one analysis run happens
immediately before any polling, and with once set the function returns after
that single run. -/
theorem watch_startup_behavior (exists0 : Bool) (mtime0 : Nat) (once : Bool)
    (polls : List PollObs) :
    (exists0 = false → watch exists0 mtime0 once polls = .error ⟨true⟩)
    ∧ (exists0 = true →
        ∃ rest, watch exists0 mtime0 once polls = .ok (true :: rest))
    ∧ (exists0 = true → once = true →
        watch exists0 mtime0 once polls = .ok [true]) := by
  refine ⟨?_, ?_, ?_⟩
  · intro h
    simp [watch, h]
  · intro h
    refine ⟨if once then [] else pollLoop mtime0 polls, ?_⟩
    simp [watch, h]
  · intro h honce
    simp [watch, h, honce]

theorem watch_startup_behavior_witness :
    watch false 0 false [] = .error ⟨true⟩
    ∧ watch true 5 true [PollObs.present 9] = .ok [true] :=
  ⟨(watch_startup_behavior false 0 false []).1 rfl,
    (watch_startup_behavior true 5 true [PollObs.present 9]).2.2 rfl rfl⟩

/-- C10: At each poll of the loop, an analysis re-run is triggered exactly
when the file is present with a modification time different from the last
recorded one; the recorded time is updated to that value for the following
polls; a missing file skips the iteration without a run; and the loop never
terminates early on file removal: it yields a decision for every poll. -/
theorem poll_loop_rerun_spec (last : Nat) (polls : List PollObs) (i : Nat) :
    ((pollLoop last polls)[i]? = some true
      ↔ ∃ m, polls[i]? = some (.present m) ∧ m ≠ lastBefore last polls i)
    ∧ (polls[i]? = some .missing → (pollLoop last polls)[i]? = some false)
    ∧ (∀ m, polls[i]? = some (.present m) → m ≠ lastBefore last polls i →
        lastBefore last polls (i + 1) = m)
    ∧ (pollLoop last polls).length = polls.length := by
  induction polls generalizing last i with
  | nil =>
    refine ⟨?_, ?_, ?_, rfl⟩
    · simp [pollLoop]
    · simp
    · simp
  | cons o rest ih =>
    cases i with
    | zero =>
      refine ⟨?_, ?_, ?_, ?_⟩
      · cases o with
        | missing =>
          simp [pollLoop, pollStep, lastBefore]
        | present m =>
          by_cases hm : m = last
          · simp [pollLoop, pollStep, lastBefore, hm]
          · simp [pollLoop, pollStep, lastBefore, hm]
      · intro hobs
        simp at hobs
        simp [pollLoop, hobs, pollStep]
      · intro m hobs hneq
        simp at hobs
        simp only [lastBefore] at hneq ⊢
        simp [hobs, pollStep, hneq]
      · simp [pollLoop, (ih (pollStep last o).1 0).2.2.2]
    | succ j =>
      have ihj := ih (pollStep last o).1 j
      refine ⟨?_, ?_, ?_, ?_⟩
      · simpa [pollLoop, lastBefore] using ihj.1
      · intro hobs
        simp at hobs
        simpa [pollLoop] using ihj.2.1 (by simp [hobs])
      · intro m hobs hneq
        simp at hobs
        simp only [lastBefore] at hneq ⊢
        exact ihj.2.2.1 m (by simp [hobs]) hneq
      · simp [pollLoop, ihj.2.2.2]

theorem poll_loop_rerun_spec_witness :
    ((pollLoop 0 [PollObs.present 3, PollObs.missing])[0]? = some true
      ↔ ∃ m, [PollObs.present 3, PollObs.missing][0]? = some (.present m)
        ∧ m ≠ lastBefore 0 [PollObs.present 3, PollObs.missing] 0)
    ∧ (pollLoop 0 [PollObs.present 3, PollObs.missing])[1]? = some false
    ∧ lastBefore 0 [PollObs.present 3, PollObs.missing] 1 = 3
    ∧ (pollLoop 0 [PollObs.present 3, PollObs.missing]).length = 2 := by
  obtain ⟨h1, -, h3, h4⟩ := poll_loop_rerun_spec 0 [PollObs.present 3, PollObs.missing] 0
  obtain ⟨-, h2, -, -⟩ := poll_loop_rerun_spec 0 [PollObs.present 3, PollObs.missing] 1
  exact ⟨h1, h2 (by decide), h3 3 (by decide) (by decide), h4⟩

end ELC
